import Mathlib

/-!
Shallow embedding of the `BooleanArray` column primitive of
`crates/polars-arrow/src/array/boolean/mod.rs`, together with the parts of
its interface boundary (Bitmap, ZipValidity, validity combination, the
mutable counterpart) that the file uses.  A `Bitmap` is embedded as its
sequence of bits; panics of checked operations are embedded as `none` /
`Except.error`.
-/

/-- Modelled from the spec: the logical type system (`crate::datatypes`) is
outside the sources; it supplies a `to_physical_type` query whose result is
compared against the boolean physical type (spec §6). -/
inductive PhysicalType where
  | Boolean
  | Other
deriving DecidableEq

/-- Modelled from the spec: logical type tags; `Boolean` is physically
boolean, `Int32` stands for any tag whose physical type is not boolean. -/
inductive ArrowDataType where
  | Boolean
  | Int32
deriving DecidableEq

def ArrowDataType.to_physical_type : ArrowDataType → PhysicalType
  | .Boolean => .Boolean
  | .Int32 => .Other

/-- Modelled from the spec: `crate::bitmap::Bitmap` (spec §3, §4.1) is outside
the sources; observably it is an immutable bit-packed sequence of booleans
(offset views only change which bits are visible), so it is embedded as the
list of its visible bits. -/
abbrev Bitmap := List Bool

/-- Modelled from the spec: the exclusively owned mutable bit buffer
(spec §4.1); content-wise also a sequence of bits. -/
abbrev MutableBitmap := List Bool

/-- `Bitmap::get_bit` (spec §4.1); total here, claims only use `i < len`. -/
def Bitmap.get_bit (b : Bitmap) (i : Nat) : Bool :=
  b.getD i false

/-- `Bitmap::unset_bits` (spec §4.1): the number of zero bits. -/
def Bitmap.unset_bits (b : Bitmap) : Nat :=
  b.count false

/-- `Bitmap::sliced_unchecked(offset, length)` (spec §4.1): the view advanced
by `offset` bits and truncated to `length` bits. -/
def Bitmap.sliced (b : Bitmap) (offset length : Nat) : Bitmap :=
  (b.drop offset).take length

/-- Modelled from the spec: `Bitmap::into_mut` (spec §4.1) returns the buffer
as an exclusively owned mutable buffer when this handle is the sole owner,
else the original shared bitmap unchanged.  Unique ownership is a property of
the runtime heap, not of the bit content, so it enters as an oracle flag. -/
def Bitmap.into_mut (b : Bitmap) (uniquelyOwned : Bool) : Bitmap ⊕ MutableBitmap :=
  if uniquelyOwned then .inr b else .inl b

/-- Modelled from the spec: `polars_error` (spec §7) is outside the sources;
recoverable construction failures carry the `ComputeError` kind. -/
inductive PolarsError where
  | computeError (msg : String)
  | other (msg : String)
deriving DecidableEq

/-- The `BooleanArray` struct of `boolean/mod.rs`. -/
structure BooleanArray where
  dtype : ArrowDataType
  values : Bitmap
  validity : Option Bitmap

/-- `BooleanArray::try_new`: errors when a present validity's length differs
from the values' length, or when the dtype is not physically boolean. -/
def BooleanArray.try_new (dtype : ArrowDataType) (values : Bitmap)
    (validity : Option Bitmap) : Except PolarsError BooleanArray :=
  if validity.any (fun validity => validity.length != values.length) then
    .error (.computeError "validity mask length must match the number of values")
  else if dtype.to_physical_type ≠ PhysicalType.Boolean then
    .error (.computeError "BooleanArray can only be initialized with a DataType whose physical type is Boolean")
  else
    .ok { dtype, values, validity }

/-- `BooleanArray::len`. -/
def BooleanArray.len (a : BooleanArray) : Nat :=
  a.values.length

/-- `BooleanArray::value` (claims only use `i < len`, where the source does
not panic). -/
def BooleanArray.value (a : BooleanArray) (i : Nat) : Bool :=
  Bitmap.get_bit a.values i

/-- Modelled from the spec: `Array::is_valid` comes from the generic array
interface outside the sources; a slot is valid when its validity bit is set,
and absent validity means all-valid (spec §3, §4.2). -/
def BooleanArray.is_valid (a : BooleanArray) (i : Nat) : Bool :=
  match a.validity with
  | some v => Bitmap.get_bit v i
  | none => true

/-- `BooleanArray::get`: `some (value i)` unless the slot is null. -/
def BooleanArray.get (a : BooleanArray) (i : Nat) : Option Bool :=
  if a.is_valid i then some (a.value i) else none

/-- Modelled from the spec: the `ZipValidity` iterator (spec §4.4) is outside
the sources; at position `i` it yields `none` when the validity iterator
(when present) yields `false`, else `some` of the values element. -/
def zipValidity (values : List Bool) (validity : Option (List Bool)) : List (Option Bool) :=
  match validity with
  | none => values.map some
  | some v => List.zipWith (fun b ok => if ok then some b else none) values v

/-- The sequence produced by `BooleanArray::iter`. -/
def BooleanArray.toList (a : BooleanArray) : List (Option Bool) :=
  zipValidity a.values a.validity

/-- `BooleanArray::slice_unchecked`: both bitmaps are sliced to the window;
a sliced validity with no unset bits is collapsed to `none` (the source's
`Option::filter(|bitmap| bitmap.unset_bits() > 0)`). -/
def BooleanArray.slice_unchecked (a : BooleanArray) (offset length : Nat) : BooleanArray :=
  { dtype := a.dtype
    values := Bitmap.sliced a.values offset length
    validity :=
      match a.validity.map (fun bitmap => Bitmap.sliced bitmap offset length) with
      | some bitmap => if Bitmap.unset_bits bitmap > 0 then some bitmap else none
      | none => none }

/-- `BooleanArray::slice`: the checked form; the `assert!` panic on
`offset + length > len` is embedded as `none`. -/
def BooleanArray.slice (a : BooleanArray) (offset length : Nat) : Option BooleanArray :=
  if offset + length ≤ a.len then some (a.slice_unchecked offset length) else none

/-- `BooleanArray::set_values`: the `assert_eq!` panic on a length mismatch is
embedded as `none`. -/
def BooleanArray.set_values (a : BooleanArray) (values : Bitmap) : Option BooleanArray :=
  if values.length = a.len then some { a with values := values } else none

/-- `BooleanArray::with_values`: clones the array and calls `set_values` on
the clone. -/
def BooleanArray.with_values (a : BooleanArray) (values : Bitmap) : Option BooleanArray :=
  a.set_values values

/-- `BooleanArray::apply_values_mut`: `make_mut` yields a buffer with the
same bits (sharing only changes cost), so the `Fn(&mut MutableBitmap)`
transform is embedded as a pure function on the bit sequence.  The source
asserts `validity.len() == values.len()` only when a validity is present;
that assertion's panic is the `none` case. -/
def BooleanArray.apply_values_mut (a : BooleanArray) (f : MutableBitmap → MutableBitmap) :
    Option BooleanArray :=
  let values := f a.values
  match a.validity with
  | some validity =>
      if validity.length = values.length then some { a with values := values } else none
  | none => some { a with values := values }

/-- Modelled from the spec: `combine_validities_and` of `compute::utils`
(spec §6) is outside the sources; it combines two optional equal-length
bitmaps bitwise, passes a single present side through, and is `none` when
both are absent. -/
def combine_validities_and : Option Bitmap → Option Bitmap → Option Bitmap
  | some l, some r => some (List.zipWith (fun x y => x && y) l r)
  | some l, none => some l
  | none, some r => some r
  | none, none => none

/-- Modelled from the spec: `combine_validities_or` of `compute::utils`
(spec §6), bitwise OR in the both-present case (the only case the array
uses). -/
def combine_validities_or : Option Bitmap → Option Bitmap → Option Bitmap
  | some l, some r => some (List.zipWith (fun x y => x || y) l r)
  | some l, none => some l
  | none, some r => some r
  | none, none => none

/-- `BooleanArray::true_and_valid`; the source's `.unwrap()` is embedded as
`getD []`, never hit since both arguments are `some`. -/
def BooleanArray.true_and_valid (a : BooleanArray) : Bitmap :=
  match a.validity with
  | none => a.values
  | some validity => (combine_validities_and (some a.values) (some validity)).getD []

/-- `BooleanArray::true_or_valid`; same embedding of `.unwrap()`. -/
def BooleanArray.true_or_valid (a : BooleanArray) : Bitmap :=
  match a.validity with
  | none => a.values
  | some validity => (combine_validities_or (some a.values) (some validity)).getD []

/-- `BooleanArray::into_inner`. -/
def BooleanArray.into_inner (a : BooleanArray) : ArrowDataType × Bitmap × Option Bitmap :=
  (a.dtype, a.values, a.validity)

/-- `BooleanArray::from_inner_unchecked`. -/
def BooleanArray.from_inner_unchecked (dtype : ArrowDataType) (values : Bitmap)
    (validity : Option Bitmap) : BooleanArray :=
  { dtype, values, validity }

/-- Modelled from the spec: `MutableBooleanArray` (spec §4.3) lives in
`mutable.rs`, outside the sources: growable values plus optional growable
validity under the same logical-type constraint. -/
structure MutableBooleanArray where
  dtype : ArrowDataType
  values : MutableBitmap
  validity : Option MutableBitmap

/-- Modelled from the spec: `MutableBooleanArray::try_new` has the same
validation contract as the immutable constructor (spec §4.3). -/
def MutableBooleanArray.try_new (dtype : ArrowDataType) (values : MutableBitmap)
    (validity : Option MutableBitmap) : Except PolarsError MutableBooleanArray :=
  if validity.any (fun validity => validity.length != values.length) then
    .error (.computeError "validity mask length must match the number of values")
  else if dtype.to_physical_type ≠ PhysicalType.Boolean then
    .error (.computeError "MutableBooleanArray can only be initialized with a DataType whose physical type is Boolean")
  else
    .ok { dtype, values, validity }

/-- Modelled from the spec: freezing the builder transfers buffer ownership
with no copy, producing the immutable array with the same contents
(spec §4.3, §9). -/
def MutableBooleanArray.freeze (m : MutableBooleanArray) : BooleanArray :=
  { dtype := m.dtype, values := m.values, validity := m.validity }

/-- `BooleanArray::into_mut`: the validity bitmap's ownership is tested
first, then the values bitmap's; the reconstructions go through the
constructors exactly as in the source (`BooleanArray::new` /
`MutableBooleanArray::try_new(..).unwrap()`, whose panics are the `none`
case).  Unique ownership of each buffer enters as an oracle flag. -/
def BooleanArray.into_mut (a : BooleanArray) (validityOwned valuesOwned : Bool) :
    Option (BooleanArray ⊕ MutableBooleanArray) :=
  match a.validity with
  | some bitmap =>
    match Bitmap.into_mut bitmap validityOwned with
    | .inl bm =>
        (BooleanArray.try_new a.dtype a.values (some bm)).toOption.map .inl
    | .inr mutBitmap =>
      match Bitmap.into_mut a.values valuesOwned with
      | .inl immutable =>
          (BooleanArray.try_new a.dtype immutable (some mutBitmap)).toOption.map .inl
      | .inr mutValues =>
          (MutableBooleanArray.try_new a.dtype mutValues (some mutBitmap)).toOption.map .inr
  | none =>
    match Bitmap.into_mut a.values valuesOwned with
    | .inl immutable =>
        (BooleanArray.try_new a.dtype immutable none).toOption.map .inl
    | .inr mutValues =>
        (MutableBooleanArray.try_new a.dtype mutValues none).toOption.map .inr

/-- The iteration sequence of the mutable counterpart. -/
def MutableBooleanArray.toList (m : MutableBooleanArray) : List (Option Bool) :=
  zipValidity m.values m.validity

/-- Modelled from the spec: the `Splitable` impl for `Option<Bitmap>`
(spec §4.2: the halves' bitmaps are "independently sliced"), outside the
sources. -/
def splitValidity (validity : Option Bitmap) (offset : Nat) :
    Option Bitmap × Option Bitmap :=
  match validity with
  | none => (none, none)
  | some v => (some (v.take offset), some (v.drop offset))

/-- `Splitable::_split_at_unchecked` for `BooleanArray`: both bitmaps are
split into the `[0, offset)` and `[offset, len)` views. -/
def BooleanArray._split_at_unchecked (a : BooleanArray) (offset : Nat) :
    BooleanArray × BooleanArray :=
  ({ dtype := a.dtype
     values := a.values.take offset
     validity := (splitValidity a.validity offset).1 },
   { dtype := a.dtype
     values := a.values.drop offset
     validity := (splitValidity a.validity offset).2 })

/-- `Splitable::split_at`: guarded by `check_bound(offset) = offset <= len`;
the failure of the checked variant is embedded as `none`. -/
def BooleanArray.split_at (a : BooleanArray) (offset : Nat) :
    Option (BooleanArray × BooleanArray) :=
  if offset ≤ a.len then some (a._split_at_unchecked offset) else none

/-- The structural invariant of `BooleanArray` (spec §3): the dtype is
physically boolean and a present validity has the values' length. -/
def BooleanArray.WF (a : BooleanArray) : Prop :=
  a.dtype.to_physical_type = PhysicalType.Boolean ∧
  ∀ v, a.validity = some v → v.length = a.values.length

/-- Example array with a set and an unset validity bit. -/
def exA1 : BooleanArray :=
  ⟨ArrowDataType.Boolean, [true, false], some [true, false]⟩

/-- Example array whose slice window `[0, 2)` is all-valid while slot 2 is null. -/
def exA3 : BooleanArray :=
  ⟨ArrowDataType.Boolean, [true, false, true], some [true, true, false]⟩

/-- Example array with a validity mask containing a null. -/
def exA2 : BooleanArray :=
  ⟨ArrowDataType.Boolean, [true, false, true], some [true, false, true]⟩

/-- Example array with a valid slot holding `false`. -/
def exA4 : BooleanArray :=
  ⟨ArrowDataType.Boolean, [true, false], some [true, false]⟩

/-- Example array used for the split witness. -/
def exA6 : BooleanArray :=
  ⟨ArrowDataType.Boolean, [true, false, true], some [true, false, true]⟩

/-- Example array used for the ownership-reclaim witness. -/
def exA8 : BooleanArray :=
  ⟨ArrowDataType.Boolean, [true], some [true]⟩

/-- Example array with an all-valid `some` validity mask. -/
def exA10 : BooleanArray :=
  ⟨ArrowDataType.Boolean, [true, false], some [true, true]⟩

theorem WF_of_eq_length (dtype : ArrowDataType) (values v : Bitmap)
    (hdt : dtype.to_physical_type = PhysicalType.Boolean)
    (h : v.length = values.length) :
    BooleanArray.WF ⟨dtype, values, some v⟩ :=
  ⟨hdt, fun _ hw => by cases Option.some.inj hw; exact h⟩

theorem WF_of_none (dtype : ArrowDataType) (values : Bitmap)
    (hdt : dtype.to_physical_type = PhysicalType.Boolean) :
    BooleanArray.WF ⟨dtype, values, none⟩ :=
  ⟨hdt, fun _ hw => Option.noConfusion hw⟩

theorem get_eq_none_iff (a : BooleanArray) (i : Nat) :
    a.get i = none ↔ ∃ v, a.validity = some v ∧ Bitmap.get_bit v i = false := by
  cases hv : a.validity with
  | none => simp [BooleanArray.get, BooleanArray.is_valid, hv]
  | some v =>
    simp only [BooleanArray.get, BooleanArray.is_valid, hv]
    cases hbit : Bitmap.get_bit v i <;> simp [hbit]

theorem is_valid_eq_false_iff (a : BooleanArray) (i : Nat) :
    a.is_valid i = false ↔ ∃ v, a.validity = some v ∧ Bitmap.get_bit v i = false := by
  cases hv : a.validity with
  | none => simp [BooleanArray.is_valid, hv]
  | some v => simp [BooleanArray.is_valid, hv]

/-- C1: for every `BooleanArray` and every index `i < len`, `get i` is `none`
iff the validity is present with bit `i` unset; otherwise
`get i = some (value i)` where `value i` is bit `i` of the values bitmap. -/
theorem booleanArray_get_spec (a : BooleanArray) (i : Nat) (hi : i < a.len) :
    (a.get i = none ↔ ∃ v, a.validity = some v ∧ Bitmap.get_bit v i = false) ∧
    ((¬ ∃ v, a.validity = some v ∧ Bitmap.get_bit v i = false) →
      a.get i = some (a.value i)) := by
  refine ⟨get_eq_none_iff a i, fun hno => ?_⟩
  have hval : a.is_valid i = true := by
    cases hb : a.is_valid i
    · exact absurd ((is_valid_eq_false_iff a i).mp hb) hno
    · rfl
  show (if a.is_valid i then some (a.value i) else none) = some (a.value i)
  rw [if_pos hval]

theorem booleanArray_get_spec_witness :
    0 < exA1.len ∧
    ((exA1.get 0 = none ↔ ∃ v, exA1.validity = some v ∧ Bitmap.get_bit v 0 = false) ∧
     ((¬ ∃ v, exA1.validity = some v ∧ Bitmap.get_bit v 0 = false) →
       exA1.get 0 = some (exA1.value 0))) :=
  ⟨by decide, booleanArray_get_spec exA1 0 (by decide)⟩

/-- C3: slicing collapses an all-valid window: when the sliced validity
bitmap has zero unset bits, the sliced array's validity is `none`, even when
the original carried a `some` validity mask. -/
theorem booleanArray_slice_collapse (a : BooleanArray) (offset length : Nat)
    (hb : offset + length ≤ a.len)
    (hz : (a.validity.map
        (fun v => Bitmap.unset_bits (Bitmap.sliced v offset length))).getD 0 = 0) :
    a.slice offset length = some (a.slice_unchecked offset length) ∧
    (a.slice_unchecked offset length).validity = none := by
  refine ⟨by simp [BooleanArray.slice, hb], ?_⟩
  cases hv : a.validity with
  | none => simp [BooleanArray.slice_unchecked, hv]
  | some v =>
    rw [hv] at hz
    simp only [Option.map_some', Option.getD_some] at hz
    simp [BooleanArray.slice_unchecked, hv, hz]

theorem booleanArray_slice_collapse_witness :
    0 + 2 ≤ exA3.len ∧
    (exA3.validity.map (fun v => Bitmap.unset_bits (Bitmap.sliced v 0 2))).getD 0 = 0 ∧
    (exA3.slice 0 2 = some (exA3.slice_unchecked 0 2) ∧
     (exA3.slice_unchecked 0 2).validity = none) :=
  ⟨by decide, by decide, booleanArray_slice_collapse exA3 0 2 (by decide) (by decide)⟩

/-- C5: `try_new` fails with a recoverable `ComputeError` exactly when a
present validity's length differs from the values' length or the dtype is
not physically boolean; otherwise it succeeds and the array's `len` equals
the values' length; it is total (the embedding of "never panics"). -/
theorem booleanArray_try_new_spec (dtype : ArrowDataType) (values : Bitmap)
    (validity : Option Bitmap) :
    ((∃ msg, BooleanArray.try_new dtype values validity =
        .error (.computeError msg)) ↔
      ((∃ v, validity = some v ∧ v.length ≠ values.length) ∨
        dtype.to_physical_type ≠ PhysicalType.Boolean)) ∧
    (∀ a, BooleanArray.try_new dtype values validity = .ok a →
      a.len = values.length) ∧
    ((¬ ((∃ v, validity = some v ∧ v.length ≠ values.length) ∨
          dtype.to_physical_type ≠ PhysicalType.Boolean)) →
      ∃ a, BooleanArray.try_new dtype values validity = .ok a ∧
        a.len = values.length) := by
  have hany : (validity.any (fun v => v.length != values.length) = true) ↔
      (∃ v, validity = some v ∧ v.length ≠ values.length) := by
    cases validity with
    | none => simp [Option.any]
    | some v => simp [Option.any]
  by_cases h1 : validity.any (fun v => v.length != values.length) = true
  · have heq : BooleanArray.try_new dtype values validity =
        .error (.computeError "validity mask length must match the number of values") := by
      unfold BooleanArray.try_new
      rw [if_pos h1]
    refine ⟨?_, ?_, ?_⟩
    · rw [heq]
      exact iff_of_true ⟨_, rfl⟩ (Or.inl (hany.mp h1))
    · intro a ha
      rw [heq] at ha
      exact Except.noConfusion ha
    · intro hno
      exact absurd (Or.inl (hany.mp h1)) hno
  · by_cases h2 : dtype.to_physical_type = PhysicalType.Boolean
    · have heq : BooleanArray.try_new dtype values validity =
          .ok ⟨dtype, values, validity⟩ := by
        unfold BooleanArray.try_new
        rw [if_neg h1, if_neg (fun hc => hc h2)]
      refine ⟨?_, ?_, ?_⟩
      · rw [heq]
        refine iff_of_false ?_ ?_
        · rintro ⟨msg, hmsg⟩
          exact Except.noConfusion hmsg
        · rintro (hl | hr)
          · exact h1 (hany.mpr hl)
          · exact hr h2
      · intro a ha
        rw [heq] at ha
        cases Except.ok.inj ha
        rfl
      · intro _
        exact ⟨⟨dtype, values, validity⟩, heq, rfl⟩
    · have heq : BooleanArray.try_new dtype values validity =
          .error (.computeError "BooleanArray can only be initialized with a DataType whose physical type is Boolean") := by
        unfold BooleanArray.try_new
        rw [if_neg h1, if_pos h2]
      refine ⟨?_, ?_, ?_⟩
      · rw [heq]
        exact iff_of_true ⟨_, rfl⟩ (Or.inr h2)
      · intro a ha
        rw [heq] at ha
        exact Except.noConfusion ha
      · intro hno
        exact absurd (Or.inr h2) hno

/-- C7: the code accepts a length-changing transform when no validity is
present: `apply_values_mut` at a validity-free one-element array with a
transform appending a bit succeeds (no panic) and yields an array of a
different length, contradicting the documented "panics if the function
modifies the length" contract (the `assert_eq!` only runs when a validity is
present). -/
theorem apply_values_mut_no_length_check :
    (⟨ArrowDataType.Boolean, [true], none⟩ : BooleanArray).apply_values_mut
        (fun v => v ++ [false]) =
      some ⟨ArrowDataType.Boolean, [true, false], none⟩ ∧
    (⟨ArrowDataType.Boolean, [true], none⟩ : BooleanArray).len ≠
      (⟨ArrowDataType.Boolean, [true, false], none⟩ : BooleanArray).len :=
  ⟨rfl, by decide⟩

/-- C9: `from_inner_unchecked` applied to the triple produced by
`into_inner` reproduces the original array exactly. -/
theorem booleanArray_into_inner_round_trip (a : BooleanArray) :
    BooleanArray.from_inner_unchecked a.into_inner.1 a.into_inner.2.1
      a.into_inner.2.2 = a :=
  rfl

/-- C10: `with_values` and `set_values` with an equal-length bitmap succeed
and leave the dtype and the validity field exactly unchanged (in particular
an all-valid `some` validity is not collapsed to `none`). -/
theorem booleanArray_with_values_frame (a : BooleanArray) (v : Bitmap)
    (h : v.length = a.len) :
    a.with_values v = some { a with values := v } ∧
    a.set_values v = some { a with values := v } ∧
    ({ a with values := v } : BooleanArray).dtype = a.dtype ∧
    ({ a with values := v } : BooleanArray).validity = a.validity := by
  refine ⟨?_, ?_, rfl, rfl⟩ <;>
    simp [BooleanArray.with_values, BooleanArray.set_values, h]

theorem booleanArray_with_values_frame_witness :
    ([false, false] : Bitmap).length = exA10.len ∧
    (exA10.with_values [false, false] = some { exA10 with values := [false, false] } ∧
     exA10.set_values [false, false] = some { exA10 with values := [false, false] } ∧
     ({ exA10 with values := [false, false] } : BooleanArray).dtype = exA10.dtype ∧
     ({ exA10 with values := [false, false] } : BooleanArray).validity = exA10.validity) :=
  ⟨by decide, booleanArray_with_values_frame exA10 [false, false] (by decide)⟩

theorem zipWith_of_all_true (bs : List Bool) :
    ∀ vs : List Bool, bs.length ≤ vs.length → (∀ x ∈ vs, x = true) →
      List.zipWith (fun b ok => if ok then some b else none) bs vs = bs.map some := by
  induction bs with
  | nil => intro vs _ _; simp
  | cons b bs ih =>
    intro vs hlen hv
    cases vs with
    | nil => simp at hlen
    | cons x vs =>
      have hx : x = true := hv x (List.mem_cons_self x vs)
      subst hx
      rw [List.zipWith_cons_cons, if_pos rfl, List.map_cons,
        ih vs (by simpa using hlen) (fun y hy => hv y (List.mem_cons_of_mem _ hy))]

/-- C2: slicing is content-preserving: for `offset + length ≤ len`, the
sliced array's iteration sequence is the original's with the first `offset`
elements skipped and the next `length` taken. -/
theorem booleanArray_slice_content (a : BooleanArray) (offset length : Nat)
    (hWF : a.WF) (hb : offset + length ≤ a.len) :
    a.slice offset length = some (a.slice_unchecked offset length) ∧
    (a.slice_unchecked offset length).toList =
      (a.toList.drop offset).take length := by
  obtain ⟨-, hval⟩ := hWF
  refine ⟨by simp [BooleanArray.slice, hb], ?_⟩
  cases hv : a.validity with
  | none =>
    simp [BooleanArray.slice_unchecked, BooleanArray.toList, zipValidity, hv,
      Bitmap.sliced, List.map_take, List.map_drop]
  | some v =>
    have hlen : v.length = a.values.length := hval v hv
    have hrhs : (a.toList.drop offset).take length =
        List.zipWith (fun b ok => if ok then some b else none)
          (Bitmap.sliced a.values offset length) (Bitmap.sliced v offset length) := by
      simp only [BooleanArray.toList, zipValidity, hv, Bitmap.sliced]
      rw [List.drop_zipWith, List.take_zipWith]
    by_cases hz : Bitmap.unset_bits (Bitmap.sliced v offset length) > 0
    · have hstep : (a.slice_unchecked offset length).toList =
          List.zipWith (fun b ok => if ok then some b else none)
            (Bitmap.sliced a.values offset length) (Bitmap.sliced v offset length) := by
        simp [BooleanArray.toList, BooleanArray.slice_unchecked, zipValidity, hv, hz]
      rw [hstep, hrhs]
    · have hcount : (Bitmap.sliced v offset length).count false = 0 :=
        Nat.eq_zero_of_not_pos hz
      have hall : ∀ x ∈ Bitmap.sliced v offset length, x = true := by
        intro x hx
        cases hxv : x with
        | false => exact absurd (hxv ▸ hx) (List.count_eq_zero.mp hcount)
        | true => rfl
      have hlen2 : (Bitmap.sliced a.values offset length).length ≤
          (Bitmap.sliced v offset length).length := by
        simp [Bitmap.sliced, hlen]
      have hstep : (a.slice_unchecked offset length).toList =
          (Bitmap.sliced a.values offset length).map some := by
        simp [BooleanArray.toList, BooleanArray.slice_unchecked, zipValidity, hv, hz]
      rw [hstep, hrhs, zipWith_of_all_true _ _ hlen2 hall]

theorem booleanArray_slice_content_witness :
    BooleanArray.WF exA2 ∧ 1 + 2 ≤ exA2.len ∧
    (exA2.slice 1 2 = some (exA2.slice_unchecked 1 2) ∧
     (exA2.slice_unchecked 1 2).toList = (exA2.toList.drop 1).take 2) :=
  ⟨WF_of_eq_length _ _ _ rfl rfl, by decide,
    booleanArray_slice_content exA2 1 2 (WF_of_eq_length _ _ _ rfl rfl) (by decide)⟩

/-- C4 counterexample: at the one-element array holding `some false` (value
bit unset, slot valid), bit 0 of `true_or_valid` is `true` — the code ORs
the values bitmap with the validity bitmap — while the claimed "set iff the
value is true or the slot is null" formula gives `false`. -/
theorem booleanArray_true_or_valid_counterexample :
    ¬ (Bitmap.get_bit
        (BooleanArray.true_or_valid ⟨ArrowDataType.Boolean, [false], some [true]⟩) 0 =
       (BooleanArray.value ⟨ArrowDataType.Boolean, [false], some [true]⟩ 0 ||
        !(BooleanArray.is_valid ⟨ArrowDataType.Boolean, [false], some [true]⟩ 0))) := by
  decide

/-- C4 (amended): for every index `i < len`, bit `i` of `true_and_valid`
equals `(get i).getD false` (null contributes `false`); when the validity is
present, bit `i` of `true_or_valid` equals `value i || validity bit i` (set
iff the value is true OR the slot is valid); when the validity is absent
both results equal the plain values bitmap. -/
theorem booleanArray_true_and_or_valid (a : BooleanArray) (i : Nat)
    (hWF : a.WF) (hi : i < a.len) :
    Bitmap.get_bit a.true_and_valid i = (a.get i).getD false ∧
    (∀ v, a.validity = some v →
      Bitmap.get_bit a.true_or_valid i = (a.value i || Bitmap.get_bit v i)) ∧
    (a.validity = none →
      a.true_and_valid = a.values ∧ a.true_or_valid = a.values) := by
  obtain ⟨-, hval⟩ := hWF
  cases hv : a.validity with
  | none =>
    refine ⟨?_, fun w hw => Option.noConfusion hw, fun _ => ?_⟩
    · simp [BooleanArray.true_and_valid, hv, BooleanArray.get, BooleanArray.is_valid,
        BooleanArray.value]
    · constructor <;> simp [BooleanArray.true_and_valid, BooleanArray.true_or_valid, hv]
  | some v =>
    have hlen : v.length = a.values.length := hval v hv
    have hiv : i < a.values.length := hi
    have hivv : i < v.length := by rw [hlen]; exact hiv
    refine ⟨?_, ?_, fun h => Option.noConfusion h⟩
    · have hand : a.true_and_valid = List.zipWith (fun x y => x && y) a.values v := by
        simp [BooleanArray.true_and_valid, hv, combine_validities_and]
      rw [hand]
      have hz : i < (List.zipWith (fun x y => x && y) a.values v).length := by
        rw [List.length_zipWith]
        omega
      show (List.zipWith (fun x y => x && y) a.values v).getD i false
          = (if a.is_valid i then some (a.value i) else none).getD false
      have hisv : a.is_valid i = v.getD i false := by
        simp [BooleanArray.is_valid, hv, Bitmap.get_bit]
      rw [List.getD_eq_getElem _ _ hz, hisv]
      cases hb : v.getD i false with
      | false =>
        rw [List.getD_eq_getElem _ _ hivv] at hb
        simp [List.getElem_zipWith, hb]
      | true =>
        rw [List.getD_eq_getElem _ _ hivv] at hb
        simp [List.getElem_zipWith, hb, BooleanArray.value, Bitmap.get_bit,
          List.getElem?_eq_getElem hiv]
    · intro w hw
      cases Option.some.inj hw
      have hor : a.true_or_valid = List.zipWith (fun x y => x || y) a.values v := by
        simp [BooleanArray.true_or_valid, hv, combine_validities_or]
      rw [hor]
      have hz : i < (List.zipWith (fun x y => x || y) a.values v).length := by
        rw [List.length_zipWith]
        omega
      show (List.zipWith (fun x y => x || y) a.values v).getD i false
          = (a.value i || Bitmap.get_bit v i)
      rw [List.getD_eq_getElem _ _ hz]
      simp [List.getElem_zipWith, BooleanArray.value, Bitmap.get_bit,
        List.getElem?_eq_getElem hiv, List.getElem?_eq_getElem hivv]

theorem booleanArray_true_and_or_valid_witness :
    BooleanArray.WF exA4 ∧ 0 < exA4.len ∧
    (Bitmap.get_bit exA4.true_and_valid 0 = (exA4.get 0).getD false ∧
     (∀ v, exA4.validity = some v →
       Bitmap.get_bit exA4.true_or_valid 0 = (exA4.value 0 || Bitmap.get_bit v 0)) ∧
     (exA4.validity = none →
       exA4.true_and_valid = exA4.values ∧ exA4.true_or_valid = exA4.values)) :=
  ⟨WF_of_eq_length _ _ _ rfl rfl, by decide,
    booleanArray_true_and_or_valid exA4 0 (WF_of_eq_length _ _ _ rfl rfl) (by decide)⟩

/-- C6: `split_at` composition law: for `k ≤ len`, concatenating the two
halves' iteration sequences reproduces the original's sequence. -/
theorem booleanArray_split_at_spec (a : BooleanArray) (k : Nat)
    (hWF : a.WF) (hk : k ≤ a.len) :
    a.split_at k = some (a._split_at_unchecked k) ∧
    (a._split_at_unchecked k).1.toList ++ (a._split_at_unchecked k).2.toList =
      a.toList := by
  obtain ⟨-, hval⟩ := hWF
  refine ⟨by simp [BooleanArray.split_at, hk], ?_⟩
  cases hv : a.validity with
  | none =>
    simp only [BooleanArray._split_at_unchecked, splitValidity, hv,
      BooleanArray.toList, zipValidity]
    rw [← List.map_append, List.take_append_drop]
  | some v =>
    have hlen : v.length = a.values.length := hval v hv
    simp only [BooleanArray._split_at_unchecked, splitValidity, hv,
      BooleanArray.toList, zipValidity]
    rw [← List.zipWith_append _ _ _ _ _ (by simp [hlen]), List.take_append_drop,
      List.take_append_drop]

theorem booleanArray_split_at_spec_witness :
    BooleanArray.WF exA6 ∧ 1 ≤ exA6.len ∧
    (exA6.split_at 1 = some (exA6._split_at_unchecked 1) ∧
     (exA6._split_at_unchecked 1).1.toList ++ (exA6._split_at_unchecked 1).2.toList =
       exA6.toList) :=
  ⟨WF_of_eq_length _ _ _ rfl rfl, by decide,
    booleanArray_split_at_spec exA6 1 (WF_of_eq_length _ _ _ rfl rfl) (by decide)⟩

/-- C8: `into_mut` yields the mutable (`inr`) variant exactly when the
validity bitmap (when present; it is tested first) and the values bitmap are
both uniquely owned; the frozen-back mutable variant has the original's
iteration sequence; any shared buffer yields `inl` with the original array
unchanged. -/
theorem booleanArray_into_mut_spec (a : BooleanArray) (validityOwned valuesOwned : Bool)
    (hWF : a.WF) :
    ∃ r, a.into_mut validityOwned valuesOwned = some r ∧
      ((∃ m, r = .inr m) ↔
        ((a.validity.isSome → validityOwned = true) ∧ valuesOwned = true)) ∧
      (∀ m, r = .inr m → m.freeze.toList = a.toList) ∧
      (∀ b, r = .inl b → b = a) := by
  obtain ⟨hdt, hval⟩ := hWF
  obtain ⟨dtype, values, validity⟩ := a
  cases validity with
  | none =>
    cases valuesOwned with
    | false =>
      refine ⟨.inl ⟨dtype, values, none⟩, ?_, ?_, ?_, ?_⟩
      · simp [BooleanArray.into_mut, Bitmap.into_mut, BooleanArray.try_new, hdt,
          Option.any, Except.toOption]
      · exact iff_of_false (fun ⟨m, hm⟩ => Sum.noConfusion hm)
          (fun ⟨h1, h2⟩ => Bool.noConfusion h2)
      · intro m hm
        exact Sum.noConfusion hm
      · intro b hb
        cases Sum.inl.inj hb
        rfl
    | true =>
      refine ⟨.inr ⟨dtype, values, none⟩, ?_, ?_, ?_, ?_⟩
      · simp [BooleanArray.into_mut, Bitmap.into_mut, MutableBooleanArray.try_new, hdt,
          Option.any, Except.toOption]
      · exact iff_of_true ⟨_, rfl⟩ ⟨fun h => Bool.noConfusion h, rfl⟩
      · intro m hm
        cases Sum.inr.inj hm
        rfl
      · intro b hb
        exact Sum.noConfusion hb
  | some v =>
    have hlen : v.length = values.length := hval v rfl
    cases validityOwned with
    | false =>
      refine ⟨.inl ⟨dtype, values, some v⟩, ?_, ?_, ?_, ?_⟩
      · simp [BooleanArray.into_mut, Bitmap.into_mut, BooleanArray.try_new, hdt, hlen,
          Option.any, Except.toOption]
      · exact iff_of_false (fun ⟨m, hm⟩ => Sum.noConfusion hm)
          (fun ⟨h1, h2⟩ => Bool.noConfusion (h1 rfl))
      · intro m hm
        exact Sum.noConfusion hm
      · intro b hb
        cases Sum.inl.inj hb
        rfl
    | true =>
      cases valuesOwned with
      | false =>
        refine ⟨.inl ⟨dtype, values, some v⟩, ?_, ?_, ?_, ?_⟩
        · simp [BooleanArray.into_mut, Bitmap.into_mut, BooleanArray.try_new, hdt, hlen,
            Option.any, Except.toOption]
        · exact iff_of_false (fun ⟨m, hm⟩ => Sum.noConfusion hm)
            (fun ⟨h1, h2⟩ => Bool.noConfusion h2)
        · intro m hm
          exact Sum.noConfusion hm
        · intro b hb
          cases Sum.inl.inj hb
          rfl
      | true =>
        refine ⟨.inr ⟨dtype, values, some v⟩, ?_, ?_, ?_, ?_⟩
        · simp [BooleanArray.into_mut, Bitmap.into_mut, MutableBooleanArray.try_new,
            hdt, hlen, Option.any, Except.toOption]
        · exact iff_of_true ⟨_, rfl⟩ ⟨fun _ => rfl, rfl⟩
        · intro m hm
          cases Sum.inr.inj hm
          rfl
        · intro b hb
          exact Sum.noConfusion hb

theorem booleanArray_into_mut_spec_witness :
    BooleanArray.WF exA8 ∧
    (∃ r, exA8.into_mut true true = some r ∧
      ((∃ m, r = .inr m) ↔ ((exA8.validity.isSome → true = true) ∧ true = true)) ∧
      (∀ m, r = .inr m → m.freeze.toList = exA8.toList) ∧
      (∀ b, r = .inl b → b = exA8)) :=
  ⟨WF_of_eq_length _ _ _ rfl rfl,
    booleanArray_into_mut_spec exA8 true true (WF_of_eq_length _ _ _ rfl rfl)⟩
